import Mathlib

/-
  Verification development for the worm-pl repository.

  The tokenizer in src/lexer.py builds one combined regular expression from an
  ordered table of named patterns (Python dict, insertion order preserved) plus
  a final single-character INVALID catch-all, and drives re.finditer over the
  input.  The Python regex engine tries the alternatives of the alternation in
  catalog order at each scan position and the first alternative that matches
  wins; finditer then resumes immediately after the matched text.  Below each
  pattern of the catalog is embedded as an executable matcher that, given the
  character just before the scan position (for lookbehind and word-boundary
  tests) and the remaining input, returns the number of characters the pattern
  would consume, or none when the pattern does not match there.  Character
  classes are modelled with their ASCII semantics (the repository sources are
  ASCII).
-/

namespace WormLex

/-- ASCII model of the regex word-character class used by word boundaries,
the lookbehind of the number patterns, and the IDENTIFIER pattern. -/
def isWordChar (c : Char) : Bool := c.isAlpha || c.isDigit || c = '_'

/-- ASCII model of the regex whitespace class (space, tab, newline, carriage
return, vertical tab, form feed) used by the WHITESPACE pattern. -/
def isPySpace (c : Char) : Bool :=
  c = ' ' || c = '\t' || c = '\n' || c = '\r' || c = '\x0b' || c = '\x0c'

/-- Length of the longest prefix whose characters all satisfy the predicate;
this is the greedy semantics of a character-class repetition. -/
def countWhile (p : Char → Bool) : List Char → Nat
  | [] => 0
  | c :: r => if p c then countWhile p r + 1 else 0

/-- A matcher receives the character immediately before the scan position
(none at the start of the input) and the remaining input, and returns the
number of characters consumed when the pattern matches there. -/
abbrev Matcher := Option Char → List Char → Option Nat

/-- Pattern NEWLINE, the alternation of carriage return plus line feed, line
feed alone, and carriage return alone, tried in that order. -/
def newlineM : Matcher := fun _ rest =>
  match rest with
  | [] => none
  | c :: rs =>
    if c = '\r' then (if rs.head? = some '\n' then some 2 else some 1)
    else if c = '\n' then some 1
    else none

/-- Pattern WHITESPACE, one or more whitespace characters, greedy. -/
def whitespaceM : Matcher := fun _ rest =>
  let n := countWhile isPySpace rest
  if n = 0 then none else some n

/-- Pattern SINGLE_LINE_COMMENT, a hash sign, then any characters other than
line feed, then either a line feed (consumed) or the end of the input. -/
def slCommentM : Matcher := fun _ rest =>
  match rest with
  | '#' :: r =>
    let n := countWhile (fun c => c ≠ '\n') r
    if (r.drop n).isEmpty then some (1 + n) else some (1 + n + 1)
  | _ => none

/-- Index of the first occurrence of the two-character sequence a b. -/
def findSub2 (a b : Char) : List Char → Option Nat
  | x :: y :: r =>
    if x = a ∧ y = b then some 0 else (findSub2 a b (y :: r)).map (· + 1)
  | _ => none

/-- Index of the first occurrence of the character a three times in a row. -/
def findSub3 (a : Char) : List Char → Option Nat
  | x :: y :: z :: r =>
    if x = a ∧ y = a ∧ z = a then some 0 else (findSub3 a (y :: z :: r)).map (· + 1)
  | _ => none

/-- Pattern MULTI_LINE_COMMENT, two tildes, then a lazy run of any characters
up to the earliest following pair of tildes, inclusive. -/
def mlCommentM : Matcher := fun _ rest =>
  match rest with
  | '~' :: '~' :: r => (findSub2 '~' '~' r).map (fun j => 2 + j + 2)
  | _ => none

/-- One step of the greedy digit-group subpattern shared by FLOAT and
INTEGER, one or more digits optionally grouped by single underscores: the
match is the maximal prefix in which every character is a digit, or an
underscore that directly follows a digit and directly precedes one.  The
flag records whether the previous consumed character was a digit. -/
def numRunAux : Bool → List Char → Nat
  | _, [] => 0
  | prevDigit, c :: r =>
    if c.isDigit then numRunAux true r + 1
    else if prevDigit && c = '_' && (match r with | d :: _ => d.isDigit | [] => false) then
      numRunAux false r + 1
    else 0

/-- Length of the greedy match of the digit-group subpattern; zero when the
first character is not a digit. -/
def numRun (l : List Char) : Nat := numRunAux false l

/-- Pattern FLOAT, a negative lookbehind for a word character, an optional
minus sign, an optional integer part, a dot, and a mandatory fraction part. -/
def floatM : Matcher := fun prev rest =>
  if (prev.map isWordChar).getD false then none
  else
    let sign := if rest.head? = some '-' then 1 else 0
    let r1 := rest.drop sign
    let ip := numRun r1
    match (r1.drop ip).head? with
    | some '.' =>
      let f := numRun (r1.drop (ip + 1))
      if f = 0 then none else some (sign + ip + 1 + f)
    | _ => none

/-- Pattern INTEGER, a negative lookbehind for a word character, an optional
minus sign, and one or more digits optionally grouped by underscores. -/
def intM : Matcher := fun prev rest =>
  if (prev.map isWordChar).getD false then none
  else
    let sign := if rest.head? = some '-' then 1 else 0
    let n := numRun (rest.drop sign)
    if n = 0 then none else some (sign + n)

/-- A word boundary beside a word character of the pattern holds when the
neighbouring input character is absent or not a word character. -/
def boundaryOk (c : Option Char) : Bool :=
  match c with
  | none => true
  | some c => !isWordChar c

/-- A keyword pattern: the literal bracketed by word boundaries, where the
first and last character of the literal are word characters, so the boundary
before requires a non-word (or absent) previous character and the boundary
after requires a non-word (or absent) next character. -/
def wordLitM (lit : List Char) : Matcher := fun prev rest =>
  if boundaryOk prev && lit.isPrefixOf rest && boundaryOk (rest.drop lit.length).head? then
    some lit.length
  else none

/-- A type-annotation keyword pattern: the literal starts with a colon, which
is not a word character, so the leading word boundary holds exactly when the
previous character exists and is a word character; the literal ends with a
word character, so the trailing boundary is as for plain keywords. -/
def typeLitM (lit : List Char) : Matcher := fun prev rest =>
  match prev with
  | some c =>
    if isWordChar c && lit.isPrefixOf rest && boundaryOk (rest.drop lit.length).head? then
      some lit.length
    else none
  | none => none

/-- Pattern IDENTIFIER, a letter or underscore followed by a greedy run of
word characters, bracketed by word boundaries; the trailing boundary is
automatic because the run is maximal. -/
def identM : Matcher := fun prev rest =>
  match rest with
  | c :: _ =>
    if boundaryOk prev && (c.isAlpha || c = '_') then
      some (countWhile isWordChar rest)
    else none
  | [] => none

/-- A plain literal pattern with no boundary conditions. -/
def litM (lit : List Char) : Matcher := fun _ rest =>
  if lit.isPrefixOf rest then some lit.length else none

/-- Pattern MULTI_LINE_STRING, three double quotes or three single quotes,
a lazy run of any characters, and the earliest matching closing triple. -/
def mlStringM : Matcher := fun _ rest =>
  match rest with
  | '"' :: '"' :: '"' :: r => (findSub3 '"' r).map (fun j => 3 + j + 3)
  | '\'' :: '\'' :: '\'' :: r => (findSub3 '\'' r).map (fun j => 3 + j + 3)
  | _ => none

/-- Body of a quoted STRING after the opening quote: a greedy repetition of
either a backslash followed by any character other than line feed, or any
character other than the quote and backslash, then the closing quote.  The
returned count includes the closing quote. -/
def stringBody (q : Char) : List Char → Option Nat
  | [] => none
  | c :: r =>
    if c = q then some 1
    else if c = '\\' then
      match r with
      | [] => none
      | d :: r2 => if d = '\n' then none else (stringBody q r2).map (· + 2)
    else (stringBody q r).map (· + 1)

/-- Pattern STRING, a double-quoted or single-quoted run supporting
backslash escapes; a bare line feed is allowed inside the quotes but not
directly after a backslash. -/
def stringM : Matcher := fun _ rest =>
  match rest with
  | '"' :: r => (stringBody '"' r).map (· + 1)
  | '\'' :: r => (stringBody '\'' r).map (· + 1)
  | _ => none

/-- Pattern INVALID, the final catch-all: any single character other than
line feed. -/
def invM : Matcher := fun _ rest =>
  match rest with
  | c :: _ => if c = '\n' then none else some 1
  | [] => none

/-- The type-annotation keyword names and literals, in catalog order. -/
def typeLits : List (String × String) :=
  [("TYPE_INT", ":int"), ("TYPE_CHAR", ":char"), ("TYPE_FLOAT", ":float"),
   ("TYPE_STRING", ":str"), ("TYPE_LIST", ":list"), ("TYPE_DICT", ":dict"),
   ("TYPE_SET", ":set"), ("TYPE_TUPLE", ":tuple"), ("TYPE_BOOL", ":bool")]

/-- The whole-word keyword, boolean, None, membership and logical-operator
names and literals, in catalog order. -/
def kwLits : List (String × String) :=
  [("IF", "if"), ("ELSEIF", "elif"), ("ELSE", "else"), ("WHILE", "while"),
   ("FOR", "for"), ("DEFINE", "def"), ("RETURN", "return"), ("CLASS", "class"),
   ("IMPORT", "import"), ("FROM", "from"), ("AS", "as"), ("TRY", "try"),
   ("EXCEPT", "except"), ("FINALLY", "finally"), ("RAISE", "raise"),
   ("WITH", "with"), ("BREAK", "break"), ("CONTINUE", "continue"),
   ("NOTIN", "not in"), ("IN", "in"), ("IS", "is"), ("TRUE", "True"),
   ("FALSE", "False"), ("NULL", "None"), ("NOT", "not"), ("AND", "and"),
   ("OR", "or")]

/-- The plain literal operator and delimiter names between IDENTIFIER and the
string patterns, in catalog order. -/
def opLitsA : List (String × String) :=
  [("ARROW", "->"), ("LAMBDA_ARROW", "=>"), ("BITW_AND", "&"), ("BITW_OR", "|"),
   ("BITW_XOR", "^"), ("BITW_NOT", "~"), ("BITW_LEFT_SHIFT", "<<"),
   ("BITW_RIGHT_SHIFT", ">>"), ("EQUALS", "=="), ("NOT_EQUALS", "!="),
   ("LESS_EQUAL", "<="), ("GREATER_EQUAL", ">="), ("LESS_THAN", "<"),
   ("GREATER_THAN", ">"), ("ASSIGN", "="), ("PLUS_ASSIGN", "+="),
   ("MINUS_ASSIGN", "-="), ("POWER_ASSIGN", "**="), ("FLOOR_DIV_ASSIGN", "//="),
   ("MULT_ASSIGN", "*="), ("DIV_ASSIGN", "/="), ("MOD_ASSIGN", "%="),
   ("PLUS", "+"), ("MINUS", "-"), ("POWER", "**"), ("FLOOR_DIV", "//"),
   ("MULTIPLY", "*"), ("DIVIDE", "/"), ("MODULO", "%"), ("LEFT_PAREN", "("),
   ("RIGHT_PAREN", ")"), ("LEFT_BRACKET", "["), ("RIGHT_BRACKET", "]"),
   ("LEFT_BRACE", "\x7b"), ("RIGHT_BRACE", "\x7d"), ("COMMA", ","),
   ("DOT", "."), ("COLON", ":"), ("SEMICOLON", ";")]

/-- The trailing special-operator names and literals, in catalog order. -/
def opLitsB : List (String × String) :=
  [("EXCLAIM", "!"), ("NULL_COALESCING", "??"), ("QUESTION_MARK", "?")]

/-- The leading layout, comment and number entries of the catalog. -/
def layoutEntries : List (String × Matcher) :=
  [("NEWLINE", newlineM), ("WHITESPACE", whitespaceM),
   ("SINGLE_LINE_COMMENT", slCommentM), ("MULTI_LINE_COMMENT", mlCommentM),
   ("FLOAT", floatM), ("INTEGER", intM)]

/-- The type-annotation keyword entries of the catalog. -/
def typeEntries : List (String × Matcher) :=
  typeLits.map (fun nl => (nl.1, typeLitM nl.2.data))

/-- The whole-word keyword entries of the catalog. -/
def kwEntries : List (String × Matcher) :=
  kwLits.map (fun nl => (nl.1, wordLitM nl.2.data))

/-- The named patterns of the catalog, in the insertion order of the pattern
dictionary of the source. -/
def namedEntries : List (String × Matcher) :=
  layoutEntries ++ typeEntries ++ kwEntries ++ [("IDENTIFIER", identM)] ++
    opLitsA.map (fun nl => (nl.1, litM nl.2.data)) ++
    [("MULTI_LINE_STRING", mlStringM), ("STRING", stringM)] ++
    opLitsB.map (fun nl => (nl.1, litM nl.2.data))

/-- The full catalog: the named patterns followed by the single-character
INVALID catch-all appended by the constructor of the Lexer. -/
def catalog : List (String × Matcher) := namedEntries ++ [("INVALID", invM)]

/-- First-alternative-wins semantics of the combined alternation: the first
entry whose matcher succeeds provides the group name and match length. -/
def firstMatch : List (String × Matcher) → Option Char → List Char → Option (String × Nat)
  | [], _, _ => none
  | e :: es, prev, rest =>
    match e.2 prev rest with
    | some len => some (e.1, len)
    | none => firstMatch es prev rest

/-- The character just before position p, used for lookbehind and leading
word-boundary tests. -/
def prevAt (s : List Char) (p : Nat) : Option Char :=
  if p = 0 then none else s.get? (p - 1)

/-- The stream of finditer matches from position p as (group name, start
position, length) triples; fuel bounds the recursion and any fuel of at
least the remaining length is enough because every match consumes at least
one character. -/
def matchesFrom (s : List Char) : Nat → Nat → List (String × Nat × Nat)
  | 0, _ => []
  | fuel + 1, p =>
    if (s.drop p).isEmpty then []
    else
      match firstMatch catalog (prevAt s p) (s.drop p) with
      | none => []
      | some (kind, len) => (kind, p, len) :: matchesFrom s fuel (p + len)

/-- All finditer matches of the combined pattern over the input. -/
def allMatches (s : List Char) : List (String × Nat × Nat) :=
  matchesFrom s s.length 0

/-- A token as produced by the tokenizer: type name, lexeme, and the
1-based line and column bookkeeping values at its start. -/
structure Token where
  type : String
  value : String
  line : Nat
  column : Nat
deriving DecidableEq, Repr

/-- Number of line feed characters in a lexeme, the count_lines helper. -/
def countNl (l : List Char) : Nat := l.count '\n'

/-- Index of the last line feed in a lexeme, the rfind call of the source;
only used under a guard that the lexeme contains at least one line feed. -/
def rfindNl (l : List Char) : Nat :=
  l.length - 1 - l.reverse.findIdx (fun c => c = '\n')

/-- The token-building loop of Lexer.tokenize: walk the finditer matches,
skip WHITESPACE, track the line counter and the start-of-line position, and
emit tokens according to the branch structure of the source. -/
def processToks (s : List Char) (ic : Bool) :
    List (String × Nat × Nat) → Nat → Nat → List Token
  | [], _, _ => []
  | (kind, start, len) :: ms, lineNum, lineStart =>
    let value := (s.drop start).take len
    let column := start - lineStart + 1
    if kind = "WHITESPACE" then
      processToks s ic ms lineNum lineStart
    else
      let linesInTok := countNl value
      if kind = "NEWLINE" then
        processToks s ic ms (lineNum + 1) (start + len)
      else if kind = "INVALID" then
        Token.mk "INVALID" (String.mk value) lineNum column ::
          processToks s ic ms lineNum lineStart
      else if kind = "MULTI_LINE_COMMENT" then
        (if ic then [Token.mk kind (String.mk value) lineNum column] else []) ++
          processToks s ic ms (lineNum + linesInTok)
            (if 0 < linesInTok then start + rfindNl value + 1 else lineStart)
      else if kind = "STRING" ∧ 0 < linesInTok then
        Token.mk kind (String.mk value) lineNum column ::
          processToks s ic ms (lineNum + linesInTok) (start + rfindNl value + 1)
      else
        (if kind ≠ "SINGLE_LINE_COMMENT" ∨ ic then
          [Token.mk kind (String.mk value) lineNum column] else []) ++
          processToks s ic ms
            (if kind = "SINGLE_LINE_COMMENT" then lineNum + 1 else lineNum)
            (if kind = "SINGLE_LINE_COMMENT" then start + len else lineStart)

/-- Lexer.tokenize: run the scan over the whole input with the line counter
starting at 1 and the line start at position 0. -/
def tokenize (input : String) (includeComments : Bool) : List Token :=
  processToks input.data includeComments (allMatches input.data) 1 0

/-- The 1-based source line on which position p actually lies, for comparing
the bookkeeping of the tokenizer against the real input geometry. -/
def lineOfPos (s : List Char) (p : Nat) : Nat := 1 + countNl (s.take p)

/-- The state built by the constructor of the Lexer class.  The constructor
evaluates input_text[0] to initialise current_char, which raises IndexError
on an empty input; that failure is modelled as none. -/
structure LexerState where
  input_text : String
  include_comments : Bool
  current_char : Char
deriving Repr

/-- Lexer construction: succeeds exactly when the input has a first
character, as in the source where current_char = input_text[0]. -/
def lexerInit (input_text : String) (include_comments : Bool) : Option LexerState :=
  (input_text.data.get? 0).map (fun c => ⟨input_text, include_comments, c⟩)

/-- A run of n dashes, as printed by the separators of the CLI. -/
def dashLine (n : Nat) : String := String.mk (List.replicate n '-')

/-- Left-justify to width w, the formatting used by the token table. -/
def padR (s : String) (w : Nat) : String :=
  s ++ String.mk (List.replicate (w - s.length) ' ')

/-- Right-justify to width w, the formatting of the listing line numbers. -/
def padL (s : String) (w : Nat) : String :=
  String.mk (List.replicate (w - s.length) ' ') ++ s

/-- One escaped character of the Python repr rendering used by the token
table, for the quote character q. -/
def pyReprChar (q : Char) (c : Char) : String :=
  if c = '\\' then "\\\\"
  else if c = q then "\\" ++ String.mk [q]
  else if c = '\n' then "\\n"
  else if c = '\r' then "\\r"
  else if c = '\t' then "\\t"
  else String.mk [c]

/-- Model of the Python repr of a string over the characters the lexemes of
this repository contain: single quotes unless the text holds a single quote
and no double quote, with backslash escapes for the quote, backslashes and
the common control characters. -/
def pyRepr (s : String) : String :=
  let q := if s.data.contains '\'' && !(s.data.contains '"') then '"' else '\''
  String.mk [q] ++ String.join (s.data.map (pyReprChar q)) ++ String.mk [q]

/-- One row of the token table printed by print_tokens_table. -/
def tokenRow (t : Token) : String :=
  padR (toString t.line) 6 ++ " " ++ padR (toString t.column) 8 ++ " " ++
    padR t.type 20 ++ " " ++ padR (pyRepr t.value) 30

/-- The lines printed by print_tokens_table: a header block, one row per
token, and a closing rule. -/
def tableLines (toks : List Token) : List String :=
  ["\nTokenization Results:", dashLine 80,
   padR "Line" 6 ++ " " ++ padR "Column" 8 ++ " " ++ padR "Token Type" 20 ++
     " " ++ padR "Value" 30,
   dashLine 80] ++ toks.map tokenRow ++ [dashLine 80]

/-- Split on line feed characters with the semantics of the Python split
method: the empty text gives one empty piece and a trailing separator gives
a trailing empty piece. -/
def splitNl : List Char → List (List Char)
  | [] => [[]]
  | c :: r =>
    if c = '\n' then [] :: splitNl r
    else
      match splitNl r with
      | [] => [[c]]
      | h :: t => (c :: h) :: t

/-- The numbered source listing the CLI prints before tokenizing. -/
def listingLines (code : String) : List String :=
  ["\nInput Code:", dashLine 40] ++
    (List.enumFrom 1 ((splitNl code.data).map String.mk)).map
      (fun p => padL (toString p.1) 2 ++ " | " ++ p.2) ++
    [dashLine 40]

/-- The CLI entry point, over an abstract file system: the path named on the
command line, whether it exists, and its text when read.  Output is the pair
of the process exit status and the printed lines.  A missing file is
reported before anything else; otherwise the listing is printed, the Lexer
is constructed and run, and the token table is printed; the constructor
failure on empty input is caught by the generic handler, which prints the
IndexError text and exits 1.  The patterns dump behind the optional -p flag
is outside this model; no claim mentions it. -/
def mainCLI (path : String) (fileExists : Bool) (content : String)
    (comments : Bool) : Nat × List String :=
  if !fileExists then
    (1, ["Error: File '" ++ path ++ "' not found"])
  else
    match lexerInit content comments with
    | none =>
      (1, listingLines content ++ ["Error: string index out of range"])
    | some _ =>
      (0, listingLines content ++ tableLines (tokenize content comments))

/-- What the results panel of the web application shows. -/
inductive WebView where
  | table : List Token → WebView
  | noTokensInfo : WebView
  | enterCodeError : WebView
deriving DecidableEq, Repr

/-- The render logic of src/main.py: an empty editor (falsy code_input)
shows the enter-some-code error without constructing a Lexer; otherwise the
text is tokenized with comments included and either the table or, when no
tokens result, the no-tokens message is shown. -/
def webRender (codeInput : String) : WebView :=
  if codeInput = "" then .enterCodeError
  else
    let toks := tokenize codeInput true
    if toks = [] then .noTokensInfo else .table toks

/-- The six preset buttons of the Presets expander in src/main.py, as label
and snippet pairs, in on-screen order. -/
def presetActions : List (String × String) :=
  [("Hello", "print(\"Hello, Worm!\");"),
   ("Math", "result = 2 + 3 * 4;"),
   ("Vars", "let x = 42;\nlet y = x + 8;"),
   ("Loop", "for i in range(5) \x7b\n    print(i);\n\x7d"),
   ("Func", "def add(a, b) \x7b\n    return a + b;\n\x7d"),
   ("Clear", "")]

/-- The preset button labels the application renders on a load.  The code in
src/main.py never reads the sample directory; the parameter records the
corpus contents only so that independence from them can be stated. -/
def renderedPresetLabels (corpusDir : List String) : List String :=
  presetActions.map (fun a => a.1)

/-- Clicking a preset button replaces the session source text with the fixed
snippet of that button. -/
def clickPreset (current : String) (name : String) : String :=
  match presetActions.find? (fun a => a.1 = name) with
  | some a => a.2
  | none => current

/-- The file names present in the sample directory of the repository
(src/samples/original). -/
def corpusFiles : List String := ["safe_divide.py"]

/-- Modelled from the spec: Python str.title case mapping used for the
claimed preset labels, capitalising each letter that follows a non-letter
and lowercasing the rest. -/
def specTitleGo : Bool → List Char → List Char
  | _, [] => []
  | prevAlpha, c :: r =>
    (if c.isAlpha then (if prevAlpha then c.toLower else c.toUpper) else c) ::
      specTitleGo c.isAlpha r

/-- Modelled from the spec: title-cased base name of a sample file. -/
def specTitle (s : String) : String := String.mk (specTitleGo false s.data)

/-- Modelled from the spec: the Presets panel the specification describes,
which scans the sample corpus for files with the recognized .worm extension
and renders one button per sample labeled with the title-cased base name, or
none (a warning) when the corpus yields no samples.  Used only to compare
the claimed behaviour with the code, which renders a fixed button list. -/
def presetButtonsSpec (corpusDir : List String) : Option (List String) :=
  let samples := corpusDir.filter (fun f => ".worm".data.isSuffixOf f.data)
  if samples.isEmpty then none
  else
    some (samples.map (fun f => specTitle (String.mk (f.data.take (f.length - 5)))))

/-- A catalog entry is positive when its matcher never consumes zero
characters; this is what makes every finditer step advance. -/
def EntryPos (e : String × Matcher) : Prop :=
  ∀ prev rest len, e.2 prev rest = some len → 1 ≤ len

/- Positivity of every matcher of the catalog. -/

theorem newlineM_pos (prev : Option Char) (rest : List Char) (len : Nat)
    (h : newlineM prev rest = some len) : 1 <= len := by
  simp only [newlineM] at h
  repeat' split at h
  all_goals first
    | (injection h with h; omega)
    | simp at h

theorem whitespaceM_pos (prev : Option Char) (rest : List Char) (len : Nat)
    (h : whitespaceM prev rest = some len) : 1 <= len := by
  simp only [whitespaceM] at h
  repeat' split at h
  all_goals first
    | (injection h with h; omega)
    | simp at h

theorem slCommentM_pos (prev : Option Char) (rest : List Char) (len : Nat)
    (h : slCommentM prev rest = some len) : 1 <= len := by
  simp only [slCommentM] at h
  repeat' split at h
  all_goals first
    | (injection h with h; omega)
    | simp at h

theorem mlCommentM_pos (prev : Option Char) (rest : List Char) (len : Nat)
    (h : mlCommentM prev rest = some len) : 1 <= len := by
  simp only [mlCommentM] at h
  repeat' split at h
  all_goals first
    | (rw [Option.map_eq_some'] at h; obtain ⟨j, hj1, hj2⟩ := h; omega)
    | simp at h

theorem floatM_pos (prev : Option Char) (rest : List Char) (len : Nat)
    (h : floatM prev rest = some len) : 1 <= len := by
  simp only [floatM] at h
  repeat' split at h
  all_goals first
    | (injection h with h; omega)
    | simp at h

theorem intM_pos (prev : Option Char) (rest : List Char) (len : Nat)
    (h : intM prev rest = some len) : 1 <= len := by
  simp only [intM] at h
  repeat' split at h
  all_goals first
    | (injection h with h; omega)
    | simp at h

theorem wordLitM_pos (lit : List Char) (hlit : lit ≠ []) (prev : Option Char)
    (rest : List Char) (len : Nat) (h : wordLitM lit prev rest = some len) : 1 <= len := by
  have hl := List.length_pos.mpr hlit
  simp only [wordLitM] at h
  repeat' split at h
  all_goals first
    | (injection h with h; omega)
    | simp at h

theorem typeLitM_pos (lit : List Char) (hlit : lit ≠ []) (prev : Option Char)
    (rest : List Char) (len : Nat) (h : typeLitM lit prev rest = some len) : 1 <= len := by
  have hl := List.length_pos.mpr hlit
  simp only [typeLitM] at h
  repeat' split at h
  all_goals first
    | (injection h with h; omega)
    | simp at h

theorem identM_pos (prev : Option Char) (rest : List Char) (len : Nat)
    (h : identM prev rest = some len) : 1 <= len := by
  simp only [identM] at h
  split at h
  · rename_i c r
    split at h
    · rename_i hg
      injection h with h
      simp only [Bool.and_eq_true, Bool.or_eq_true, decide_eq_true_eq] at hg
      have hw : isWordChar c = true := by
        rcases hg.2 with ha | ha
        · simp [isWordChar, ha]
        · simp [isWordChar, ha]
      rw [← h]
      unfold countWhile
      rw [if_pos hw]
      omega
    · simp at h
  · simp at h

theorem litM_pos (lit : List Char) (hlit : lit ≠ []) (prev : Option Char)
    (rest : List Char) (len : Nat) (h : litM lit prev rest = some len) : 1 <= len := by
  have hl := List.length_pos.mpr hlit
  simp only [litM] at h
  repeat' split at h
  all_goals first
    | (injection h with h; omega)
    | simp at h

theorem mlStringM_pos (prev : Option Char) (rest : List Char) (len : Nat)
    (h : mlStringM prev rest = some len) : 1 <= len := by
  simp only [mlStringM] at h
  repeat' split at h
  all_goals first
    | (rw [Option.map_eq_some'] at h; obtain ⟨j, hj1, hj2⟩ := h; omega)
    | simp at h

theorem stringM_pos (prev : Option Char) (rest : List Char) (len : Nat)
    (h : stringM prev rest = some len) : 1 <= len := by
  simp only [stringM] at h
  repeat' split at h
  all_goals first
    | (rw [Option.map_eq_some'] at h; obtain ⟨j, hj1, hj2⟩ := h; omega)
    | simp at h

theorem invM_pos (prev : Option Char) (rest : List Char) (len : Nat)
    (h : invM prev rest = some len) : 1 <= len := by
  simp only [invM] at h
  repeat' split at h
  all_goals first
    | (injection h with h; omega)
    | simp at h

/- Catalog-level lemmas. -/

theorem allPos_append (l1 l2 : List (String × Matcher))
    (h1 : ∀ e ∈ l1, EntryPos e) (h2 : ∀ e ∈ l2, EntryPos e) :
    ∀ e ∈ l1 ++ l2, EntryPos e := by
  intro e he
  rcases List.mem_append.mp he with h | h
  · exact h1 e h
  · exact h2 e h

theorem layoutEntries_pos : ∀ e ∈ layoutEntries, EntryPos e := by
  intro e he
  simp only [layoutEntries, List.mem_cons, List.not_mem_nil, or_false] at he
  rcases he with rfl | rfl | rfl | rfl | rfl | rfl
  · exact newlineM_pos
  · exact whitespaceM_pos
  · exact slCommentM_pos
  · exact mlCommentM_pos
  · exact floatM_pos
  · exact intM_pos

theorem typeEntries_pos : ∀ e ∈ typeEntries, EntryPos e := by
  intro e he
  simp only [typeEntries, List.mem_map] at he
  obtain ⟨a, ha, rfl⟩ := he
  have hne : ∀ x ∈ typeLits, x.2.data ≠ [] := by decide
  exact typeLitM_pos a.2.data (hne a ha)

theorem kwEntries_pos : ∀ e ∈ kwEntries, EntryPos e := by
  intro e he
  simp only [kwEntries, List.mem_map] at he
  obtain ⟨a, ha, rfl⟩ := he
  have hne : ∀ x ∈ kwLits, x.2.data ≠ [] := by decide
  exact wordLitM_pos a.2.data (hne a ha)

theorem opEntriesA_pos : ∀ e ∈ opLitsA.map (fun nl => (nl.1, litM nl.2.data)), EntryPos e := by
  intro e he
  simp only [List.mem_map] at he
  obtain ⟨a, ha, rfl⟩ := he
  have hne : ∀ x ∈ opLitsA, x.2.data ≠ [] := by decide
  exact litM_pos a.2.data (hne a ha)

theorem opEntriesB_pos : ∀ e ∈ opLitsB.map (fun nl => (nl.1, litM nl.2.data)), EntryPos e := by
  intro e he
  simp only [List.mem_map] at he
  obtain ⟨a, ha, rfl⟩ := he
  have hne : ∀ x ∈ opLitsB, x.2.data ≠ [] := by decide
  exact litM_pos a.2.data (hne a ha)

theorem catalog_pos : ∀ e ∈ catalog, EntryPos e := by
  have hident : ∀ e ∈ [("IDENTIFIER", identM)], EntryPos e := by
    intro e he
    simp only [List.mem_singleton] at he
    subst he
    exact identM_pos
  have hstr : ∀ e ∈ [("MULTI_LINE_STRING", mlStringM), ("STRING", stringM)], EntryPos e := by
    intro e he
    simp only [List.mem_cons, List.not_mem_nil, or_false] at he
    rcases he with rfl | rfl
    · exact mlStringM_pos
    · exact stringM_pos
  have hinv : ∀ e ∈ [("INVALID", invM)], EntryPos e := by
    intro e he
    simp only [List.mem_singleton] at he
    subst he
    exact invM_pos
  have hnamed : ∀ e ∈ namedEntries, EntryPos e := by
    unfold namedEntries
    exact allPos_append _ _ (allPos_append _ _ (allPos_append _ _ (allPos_append _ _
      (allPos_append _ _ (allPos_append _ _ layoutEntries_pos typeEntries_pos)
        kwEntries_pos) hident) opEntriesA_pos) hstr) opEntriesB_pos
  unfold catalog
  exact allPos_append _ _ hnamed hinv

/- Structure lemmas about the first-match-wins alternation. -/

theorem firstMatch_pos (prev : Option Char) (rest : List Char) :
    ∀ (es : List (String × Matcher)), (∀ e ∈ es, EntryPos e) →
      ∀ n len, firstMatch es prev rest = some (n, len) → 1 <= len := by
  intro es
  induction es with
  | nil =>
    intro _ n len h
    simp [firstMatch] at h
  | cons e es ih =>
    intro hall n len h
    unfold firstMatch at h
    cases hm : e.2 prev rest with
    | some l =>
      rw [hm] at h
      injection h with h
      injection h with h1 h2
      exact h2 ▸ hall e (List.mem_cons_self e es) prev rest l hm
    | none =>
      rw [hm] at h
      exact ih (fun x hx => hall x (List.mem_cons_of_mem e hx)) n len h

theorem firstMatch_isSome_of_mem (prev : Option Char) (rest : List Char) :
    ∀ (es : List (String × Matcher)) (e : String × Matcher), e ∈ es →
      (e.2 prev rest).isSome = true → (firstMatch es prev rest).isSome = true := by
  intro es
  induction es with
  | nil =>
    intro e he
    simp at he
  | cons a es ih =>
    intro e he hsome
    unfold firstMatch
    cases hm : a.2 prev rest with
    | some l => simp
    | none =>
      rcases List.mem_cons.mp he with rfl | hmem
      · rw [hm] at hsome
        simp at hsome
      · exact ih e hmem hsome

theorem firstMatch_name_mem (prev : Option Char) (rest : List Char) :
    ∀ (es : List (String × Matcher)) (n : String) (len : Nat),
      firstMatch es prev rest = some (n, len) →
      ∃ e ∈ es, e.1 = n ∧ e.2 prev rest = some len := by
  intro es
  induction es with
  | nil =>
    intro n len h
    simp [firstMatch] at h
  | cons a es ih =>
    intro n len h
    unfold firstMatch at h
    cases hm : a.2 prev rest with
    | some l =>
      rw [hm] at h
      injection h with h
      injection h with h1 h2
      exact ⟨a, List.mem_cons_self a es, h1, h2 ▸ hm⟩
    | none =>
      rw [hm] at h
      obtain ⟨e, hmem, he⟩ := ih n len h
      exact ⟨e, List.mem_cons_of_mem a hmem, he⟩

theorem firstMatch_append_of_some (prev : Option Char) (rest : List Char)
    (l2 : List (String × Matcher)) :
    ∀ (l1 : List (String × Matcher)) (r : String × Nat),
      firstMatch l1 prev rest = some r → firstMatch (l1 ++ l2) prev rest = some r := by
  intro l1
  induction l1 with
  | nil =>
    intro r h
    simp [firstMatch] at h
  | cons a l1 ih =>
    intro r h
    rw [List.cons_append]
    unfold firstMatch at h ⊢
    cases hm : a.2 prev rest with
    | some l =>
      rw [hm] at h
      exact h
    | none =>
      rw [hm] at h
      exact ih r h

theorem firstMatch_append_of_none (prev : Option Char) (rest : List Char)
    (l2 : List (String × Matcher)) :
    ∀ (l1 : List (String × Matcher)), firstMatch l1 prev rest = none →
      firstMatch (l1 ++ l2) prev rest = firstMatch l2 prev rest := by
  intro l1
  induction l1 with
  | nil =>
    intro _
    simp
  | cons a l1 ih =>
    intro h
    rw [List.cons_append]
    unfold firstMatch at h
    conv_lhs => unfold firstMatch
    cases hm : a.2 prev rest with
    | some l =>
      rw [hm] at h
      simp at h
    | none =>
      rw [hm] at h
      exact ih h

theorem firstMatch_none_of_all_none (prev : Option Char) (rest : List Char) :
    ∀ (es : List (String × Matcher)),
      (es.all fun e => (e.2 prev rest).isNone) = true →
      firstMatch es prev rest = none := by
  intro es
  induction es with
  | nil =>
    intro _
    simp [firstMatch]
  | cons a es ih =>
    intro h
    rw [List.all_cons, Bool.and_eq_true] at h
    unfold firstMatch
    cases hm : a.2 prev rest with
    | some l =>
      rw [hm] at h
      simp at h
    | none =>
      exact ih h.2

/-- Totality of the combined alternation: at any nonempty remainder some
alternative matches, because NEWLINE covers line feeds and carriage returns
and the INVALID catch-all covers every other character. -/
theorem firstMatch_catalog_total (prev : Option Char) (rest : List Char)
    (h : rest ≠ []) : (firstMatch catalog prev rest).isSome = true := by
  rcases rest with _ | ⟨c, r⟩
  · exact absurd rfl h
  by_cases hc : c = '\n'
  · have hm : (newlineM prev (c :: r)).isSome = true := by
      subst hc
      simp [newlineM]
    have hmem : ("NEWLINE", newlineM) ∈ catalog := by
      simp [catalog, namedEntries, layoutEntries]
    exact firstMatch_isSome_of_mem prev (c :: r) catalog ("NEWLINE", newlineM) hmem hm
  · have hm : (invM prev (c :: r)).isSome = true := by
      simp [invM, hc]
    have hmem : ("INVALID", invM) ∈ catalog := by
      simp [catalog]
    exact firstMatch_isSome_of_mem prev (c :: r) catalog ("INVALID", invM) hmem hm

/-- The finditer matches tile the remaining input: with enough fuel, the
matched substrings from position p concatenate to the suffix from p. -/
theorem matchesFrom_join (s : List Char) :
    ∀ (fuel p : Nat), s.length - p <= fuel →
      ((matchesFrom s fuel p).map (fun m => (s.drop m.2.1).take m.2.2)).flatten = s.drop p := by
  intro fuel
  induction fuel with
  | zero =>
    intro p hp
    have hle : s.length <= p := by omega
    simp [matchesFrom, List.drop_eq_nil_of_le hle]
  | succ fuel ih =>
    intro p hp
    by_cases hemp : (s.drop p).isEmpty
    · rw [List.isEmpty_iff] at hemp
      simp [matchesFrom, hemp]
    · have hne : s.drop p ≠ [] := by
        intro hx
        rw [hx] at hemp
        simp at hemp
      have hplt : p < s.length := by
        by_contra hx
        exact hne (List.drop_eq_nil_of_le (by omega))
      cases hm : firstMatch catalog (prevAt s p) (s.drop p) with
      | none =>
        have := firstMatch_catalog_total (prevAt s p) (s.drop p) hne
        rw [hm] at this
        simp at this
      | some r =>
        obtain ⟨n, len⟩ := r
        have hlen : 1 <= len :=
          firstMatch_pos (prevAt s p) (s.drop p) catalog catalog_pos n len hm
        have hstep : matchesFrom s (fuel + 1) p =
            (n, p, len) :: matchesFrom s fuel (p + len) := by
          conv_lhs => unfold matchesFrom
          rw [if_neg (by simp [hemp]), hm]
        rw [hstep, List.map_cons, List.flatten_cons, ih (p + len) (by omega)]
        have hdd : (s.drop p).drop len = s.drop (p + len) := by
          rw [List.drop_drop, Nat.add_comm]
        rw [← hdd]
        exact List.take_append_drop len (s.drop p)

/- Shared helper lemmas for the claim theorems. -/

theorem lexerInit_isSome_of_ne (st : String) (ic : Bool) (h : st ≠ "") :
    (lexerInit st ic).isSome = true := by
  obtain ⟨l⟩ := st
  cases l with
  | nil => exact absurd rfl h
  | cons c r => simp [lexerInit]

theorem drop_ne_nil_of_lt (s : List Char) (p : Nat) (hp : p < s.length) :
    s.drop p ≠ [] := by
  intro hx
  have hlen : s.length - p = 0 := by
    rw [← List.length_drop p s, hx]
    rfl
  omega

/- Claim theorems. -/

/-- Claim C1: the finditer matches of the combined pattern (emitted tokens
plus discarded whitespace and newline matches and excluded comments) tile
the whole input: their matched substrings concatenated in match order
reconstruct the input exactly, and at every position some alternative of
the catalog (at worst the INVALID catch-all) matches. -/
theorem claim_C1_scan_tiles_input :
    ∀ s : List Char,
      (((allMatches s).map (fun m => (s.drop m.2.1).take m.2.2)).flatten = s) ∧
      (∀ p, p < s.length → (firstMatch catalog (prevAt s p) (s.drop p)).isSome = true) := by
  intro s
  constructor
  · have h := matchesFrom_join s s.length 0 (by omega)
    simpa [allMatches] using h
  · intro p hp
    exact firstMatch_catalog_total (prevAt s p) (s.drop p) (drop_ne_nil_of_lt s p hp)

/-- Witness for claim C1 at a concrete input. -/
theorem claim_C1_scan_tiles_input_witness :
    (firstMatch catalog (prevAt ['a'] 0) (List.drop 0 ['a'])).isSome = true :=
  (claim_C1_scan_tiles_input ['a']).2 0 (by decide)

/-- Claim C2: a character at which no named catalog rule matches is taken by
the INVALID catch-all as exactly one single-character match; the processing
loop then emits exactly one INVALID token carrying that character with the
current line and column bookkeeping, in both comment-inclusion settings, and
the scan resumes at the next position. -/
theorem claim_C2_invalid_char_tolerance :
    ∀ (s : List Char) (p fuel : Nat), p < s.length →
      (namedEntries.all fun e => (e.2 (prevAt s p) (s.drop p)).isNone) = true →
      firstMatch catalog (prevAt s p) (s.drop p) = some ("INVALID", 1) ∧
      (∀ ic ms lineNum lineStart,
        processToks s ic (("INVALID", p, 1) :: ms) lineNum lineStart =
          Token.mk "INVALID" (String.mk ((s.drop p).take 1)) lineNum (p - lineStart + 1) ::
            processToks s ic ms lineNum lineStart) ∧
      matchesFrom s (fuel + 1) p = ("INVALID", p, 1) :: matchesFrom s fuel (p + 1) := by
  intro s p fuel hp hall
  have hne : s.drop p ≠ [] := drop_ne_nil_of_lt s p hp
  have hnone : firstMatch namedEntries (prevAt s p) (s.drop p) = none :=
    firstMatch_none_of_all_none (prevAt s p) (s.drop p) namedEntries hall
  have hnl : newlineM (prevAt s p) (s.drop p) = none := by
    have hmem : ("NEWLINE", newlineM) ∈ namedEntries := by
      simp [namedEntries, layoutEntries]
    have hh := List.all_eq_true.mp hall ("NEWLINE", newlineM) hmem
    simpa [Option.isNone_iff_eq_none] using hh
  have hinv : invM (prevAt s p) (s.drop p) = some 1 := by
    cases hdc : s.drop p with
    | nil => exact absurd hdc hne
    | cons c r =>
      rw [hdc] at hnl
      by_cases hc : c = '\n'
      · subst hc
        simp [newlineM] at hnl
      · simp [invM, hc]
  have hfm : firstMatch catalog (prevAt s p) (s.drop p) = some ("INVALID", 1) := by
    unfold catalog
    rw [firstMatch_append_of_none (prevAt s p) (s.drop p) _ namedEntries hnone]
    unfold firstMatch
    rw [show ("INVALID", invM).2 = invM from rfl, hinv]
  refine ⟨hfm, ?_, ?_⟩
  · intro ic ms lineNum lineStart
    rfl
  · conv_lhs => unfold matchesFrom
    rw [if_neg (by simp [hne]), hfm]

/-- Witness for claim C2 at the concrete input with one commercial at. -/
theorem claim_C2_invalid_char_tolerance_witness :
    firstMatch catalog (prevAt ['@'] 0) (List.drop 0 ['@']) = some ("INVALID", 1) :=
  (claim_C2_invalid_char_tolerance ['@'] 0 0 (by decide) (by rfl)).1

/-- Counterexample to claim C3: in the input with the characters x, space,
line feed, y the newline is consumed inside a WHITESPACE run, the line
counter is not advanced, and the token for y carries line 1 and column 4
although y lies on source line 2 at offset 1. -/
theorem claim_C3_line_column_cex :
    tokenize "x \ny" false =
      [Token.mk "IDENTIFIER" "x" 1 1, Token.mk "IDENTIFIER" "y" 1 4] ∧
    lineOfPos "x \ny".data 3 = 2 := by
  constructor <;> rfl

/-- Claim C3 as amended: the line counter advances by one per NEWLINE match
and per SINGLE_LINE_COMMENT, and by the number of embedded newlines for
MULTI_LINE_COMMENT and for STRING tokens that span lines, resetting the
line-start reference; but newlines consumed inside a WHITESPACE run and
newlines embedded in MULTI_LINE_STRING tokens do not advance the counter,
so later tokens can carry a stale line and an inflated column. -/
theorem claim_C3_line_column_amended :
    tokenize "x\ny" false =
      [Token.mk "IDENTIFIER" "x" 1 1, Token.mk "IDENTIFIER" "y" 2 1] ∧
    tokenize "#c\ny" false = [Token.mk "IDENTIFIER" "y" 2 1] ∧
    tokenize "~~a\nb~~y" false = [Token.mk "IDENTIFIER" "y" 2 4] ∧
    tokenize "\"a\nb\"y" false =
      [Token.mk "STRING" "\"a\nb\"" 1 1, Token.mk "IDENTIFIER" "y" 2 3] ∧
    tokenize "x \ny" false =
      [Token.mk "IDENTIFIER" "x" 1 1, Token.mk "IDENTIFIER" "y" 1 4] ∧
    tokenize "\x27\x27\x27a\nb\x27\x27\x27y" false =
      [Token.mk "MULTI_LINE_STRING" "\x27\x27\x27a\nb\x27\x27\x27" 1 1,
       Token.mk "IDENTIFIER" "y" 1 10] ∧
    lineOfPos "\x27\x27\x27a\nb\x27\x27\x27y".data 9 = 2 := by
  refine ⟨?_, ?_, ?_, ?_, ?_, ?_, ?_⟩ <;> rfl

/-- Claim C4: the Lexer cannot be constructed on the empty input because the
constructor indexes the first character; on a nonempty input construction
succeeds; the CLI run on an existing zero-byte file prints the IndexError
message with the Error prefix and exits with status 1 without printing a
token table; and the web application guard shows the enter-some-code error
for an empty editor without constructing a Lexer. -/
theorem claim_C4_empty_input_unconstructible :
    (∀ ic, lexerInit "" ic = none) ∧
    (∀ (st : String) (ic : Bool), st ≠ "" → (lexerInit st ic).isSome = true) ∧
    (mainCLI "empty.worm" true "" false).1 = 1 ∧
    "Error: string index out of range" ∈ (mainCLI "empty.worm" true "" false).2 ∧
    "\nTokenization Results:" ∉ (mainCLI "empty.worm" true "" false).2 ∧
    webRender "" = WebView.enterCodeError := by
  refine ⟨fun ic => rfl, ?_, by rfl, by decide, by decide, by rfl⟩
  intro st ic h
  exact lexerInit_isSome_of_ne st ic h

/-- Witness for claim C4 at a concrete nonempty input. -/
theorem claim_C4_empty_input_unconstructible_witness :
    (lexerInit "x" true).isSome = true :=
  claim_C4_empty_input_unconstructible.2.1 "x" true (by decide)

/-- Counterexample to claim C5: an existing, readable, zero-byte file does
not exit with status 0; the constructor failure is caught by the generic
handler and the process exits 1. -/
theorem claim_C5_cli_exit_cex : (mainCLI "zero.worm" true "" false).1 ≠ 0 := by decide

/-- Claim C5 as amended: a nonexistent path prints the not-found message and
exits 1; an existing nonempty file exits 0 and prints the listing and a
token table with one row per non-discarded token (five fixed frame lines);
an existing empty file is reported through the generic handler with an
Error line and exit status 1. -/
theorem claim_C5_cli_exit_amended :
    (∀ path content c, mainCLI path false content c =
      (1, ["Error: File '" ++ path ++ "' not found"])) ∧
    (∀ path : String, "' not found".data <:+ ("Error: File '" ++ path ++ "' not found").data) ∧
    (∀ path content c, content ≠ "" →
      mainCLI path true content c =
        (0, listingLines content ++ tableLines (tokenize content c)) ∧
      (tableLines (tokenize content c)).length = (tokenize content c).length + 5) ∧
    (∀ path c, (mainCLI path true "" c).1 = 1 ∧
      "Error: string index out of range" ∈ (mainCLI path true "" c).2) := by
  refine ⟨fun path content c => rfl, ?_, ?_, ?_⟩
  · intro path
    exact ⟨("Error: File '" ++ path).data, rfl⟩
  · intro path content c hne
    have hsome := lexerInit_isSome_of_ne content c hne
    constructor
    · cases hli : lexerInit content c with
      | none =>
        rw [hli] at hsome
        simp at hsome
      | some st => simp [mainCLI, hli]
    · simp [tableLines]
  · intro path c
    refine ⟨rfl, ?_⟩
    simp [mainCLI, lexerInit]

/-- Witness for claim C5 at a concrete existing nonempty file. -/
theorem claim_C5_cli_exit_amended_witness :
    mainCLI "ok.worm" true "x = 1;" false =
      (0, listingLines "x = 1;" ++ tableLines (tokenize "x = 1;" false)) :=
  (claim_C5_cli_exit_amended.2.2.1 "ok.worm" "x = 1;" false (by decide)).1

/-- Counterexample to claim C6: the sample corpus of the repository contains
no file with the .worm extension, so the claimed corpus-scanning Presets
panel would show a warning and no buttons, yet the application renders the
six fixed buttons Hello, Math, Vars, Loop, Func, Clear. -/
theorem claim_C6_presets_cex :
    presetButtonsSpec corpusFiles = none ∧
    renderedPresetLabels corpusFiles = ["Hello", "Math", "Vars", "Loop", "Func", "Clear"] := by
  constructor <;> rfl

/-- Claim C6 as amended: the Presets panel always renders the same six fixed
buttons whatever the corpus directory holds, and clicking a button replaces
the current source text with the fixed snippet of that button (Clear sets
the empty string); there is no corpus scan and no warning path. -/
theorem claim_C6_presets_amended :
    (∀ corpus : List String, renderedPresetLabels corpus =
      ["Hello", "Math", "Vars", "Loop", "Func", "Clear"]) ∧
    (∀ current : String, presetActions.map (fun a => clickPreset current a.1) =
      presetActions.map (fun a => a.2)) :=
  ⟨fun _ => rfl, fun _ => rfl⟩

/-- Claim C7: a colon immediately after an identifier character satisfies
the word boundary of the type-annotation patterns, so x colon int is a
single TYPE_INT token; with a space before the colon the boundary fails and
the colon and the word int are tokenized separately as COLON and
IDENTIFIER. -/
theorem claim_C7_type_boundary :
    tokenize "x:int = 5;" false =
      [Token.mk "IDENTIFIER" "x" 1 1, Token.mk "TYPE_INT" ":int" 1 2,
       Token.mk "ASSIGN" "=" 1 7, Token.mk "INTEGER" "5" 1 9,
       Token.mk "SEMICOLON" ";" 1 10] ∧
    tokenize "x :int = 5;" false =
      [Token.mk "IDENTIFIER" "x" 1 1, Token.mk "COLON" ":" 1 3,
       Token.mk "IDENTIFIER" "int" 1 4, Token.mk "ASSIGN" "=" 1 8,
       Token.mk "INTEGER" "5" 1 10, Token.mk "SEMICOLON" ";" 1 11] := by
  constructor <;> rfl

/-- Claim C8: the two-word phrase not in with exactly one interior space is
a single NOTIN token; two interior spaces or a line break between the words
fall through to the separate NOT and IN tokens. -/
theorem claim_C8_not_in_phrase :
    tokenize "a not in b" false =
      [Token.mk "IDENTIFIER" "a" 1 1, Token.mk "NOTIN" "not in" 1 3,
       Token.mk "IDENTIFIER" "b" 1 10] ∧
    tokenize "a not  in b" false =
      [Token.mk "IDENTIFIER" "a" 1 1, Token.mk "NOT" "not" 1 3,
       Token.mk "IN" "in" 1 8, Token.mk "IDENTIFIER" "b" 1 11] ∧
    tokenize "a not\nin b" false =
      [Token.mk "IDENTIFIER" "a" 1 1, Token.mk "NOT" "not" 1 3,
       Token.mk "IN" "in" 2 1, Token.mk "IDENTIFIER" "b" 2 4] := by
  refine ⟨?_, ?_, ?_⟩ <;> rfl

/-- Claim C9: multi-character operators are never mis-split: the power-assign
operator is one POWER_ASSIGN token, the double question mark is one
NULL_COALESCING token, and every compound operator of the catalog matched in
an expression context comes out as its own single token rather than as its
prefix forms. -/
theorem claim_C9_compound_operators :
    tokenize "x **= 2" false =
      [Token.mk "IDENTIFIER" "x" 1 1, Token.mk "POWER_ASSIGN" "**=" 1 3,
       Token.mk "INTEGER" "2" 1 7] ∧
    tokenize "a ?? b" false =
      [Token.mk "IDENTIFIER" "a" 1 1, Token.mk "NULL_COALESCING" "??" 1 3,
       Token.mk "IDENTIFIER" "b" 1 6] ∧
    ([("POWER_ASSIGN", "**="), ("FLOOR_DIV_ASSIGN", "//="), ("MULT_ASSIGN", "*="),
      ("DIV_ASSIGN", "/="), ("MOD_ASSIGN", "%="), ("PLUS_ASSIGN", "+="),
      ("MINUS_ASSIGN", "-="), ("EQUALS", "=="), ("NOT_EQUALS", "!="),
      ("LESS_EQUAL", "<="), ("GREATER_EQUAL", ">="), ("BITW_LEFT_SHIFT", "<<"),
      ("BITW_RIGHT_SHIFT", ">>"), ("ARROW", "->"), ("LAMBDA_ARROW", "=>"),
      ("NULL_COALESCING", "??"), ("POWER", "**"), ("FLOOR_DIV", "//")].all
      fun nk => decide (tokenize ("q " ++ nk.2 ++ " p") false =
        [Token.mk "IDENTIFIER" "q" 1 1, Token.mk nk.1 nk.2 1 3,
         Token.mk "IDENTIFIER" "p" 1 (3 + nk.2.length + 1)])) = true := by
  refine ⟨?_, ?_, ?_⟩ <;> rfl

/-- Claim C10: whenever a type-annotation or whole-word keyword pattern
(keywords, booleans, None, membership and logical words) matches at a scan
position, the combined alternation selects an alternative that precedes
IDENTIFIER in the catalog, so the selected group name is never IDENTIFIER;
and each keyword literal in a whole-word position tokenizes to its keyword
kind. -/
theorem claim_C10_keywords_beat_identifier :
    (∀ e ∈ typeEntries ++ kwEntries, ∀ (prev : Option Char) (rest : List Char),
      (e.2 prev rest).isSome = true →
      ∃ n len, firstMatch catalog prev rest = some (n, len) ∧ n ≠ "IDENTIFIER") ∧
    (kwLits.all fun nl =>
      decide (tokenize nl.2 false = [Token.mk nl.1 nl.2 1 1])) = true ∧
    (typeLits.all fun nl =>
      decide (tokenize ("x" ++ nl.2) false =
        [Token.mk "IDENTIFIER" "x" 1 1, Token.mk nl.1 nl.2 1 2])) = true := by
  refine ⟨?_, by rfl, by rfl⟩
  intro e he prev rest hsome
  have hpre : e ∈ layoutEntries ++ typeEntries ++ kwEntries := by
    rcases List.mem_append.mp he with h | h
    · exact List.mem_append.mpr (Or.inl (List.mem_append.mpr (Or.inr h)))
    · exact List.mem_append.mpr (Or.inr h)
  have hsome2 : (firstMatch (layoutEntries ++ typeEntries ++ kwEntries) prev rest).isSome = true :=
    firstMatch_isSome_of_mem prev rest _ e hpre hsome
  obtain ⟨⟨n, len⟩, hr⟩ := Option.isSome_iff_exists.mp hsome2
  have hcat : catalog = (layoutEntries ++ typeEntries ++ kwEntries) ++
      ([("IDENTIFIER", identM)] ++ (opLitsA.map (fun nl => (nl.1, litM nl.2.data)) ++
        ([("MULTI_LINE_STRING", mlStringM), ("STRING", stringM)] ++
          (opLitsB.map (fun nl => (nl.1, litM nl.2.data)) ++ [("INVALID", invM)])))) := by
    simp [catalog, namedEntries, List.append_assoc]
  refine ⟨n, len, ?_, ?_⟩
  · rw [hcat]
    exact firstMatch_append_of_some prev rest _ _ (n, len) hr
  · obtain ⟨e2, hmem2, hname, _⟩ := firstMatch_name_mem prev rest _ n len hr
    rw [← hname]
    rcases List.mem_append.mp hmem2 with h2 | h2
    · rcases List.mem_append.mp h2 with h3 | h3
      · have hx : ∀ x ∈ layoutEntries, x.1 ≠ "IDENTIFIER" := by
          intro x hx
          simp only [layoutEntries, List.mem_cons, List.not_mem_nil, or_false] at hx
          rcases hx with rfl | rfl | rfl | rfl | rfl | rfl <;> decide
        exact hx e2 h3
      · simp only [typeEntries, List.mem_map] at h3
        obtain ⟨a, ha, rfl⟩ := h3
        have hx : ∀ a ∈ typeLits, a.1 ≠ "IDENTIFIER" := by decide
        exact hx a ha
    · simp only [kwEntries, List.mem_map] at h2
      obtain ⟨a, ha, rfl⟩ := h2
      have hx : ∀ a ∈ kwLits, a.1 ≠ "IDENTIFIER" := by decide
      exact hx a ha

/-- Witness for claim C10 at the keyword if. -/
theorem claim_C10_keywords_beat_identifier_witness :
    ∃ n len, firstMatch catalog none "if".data = some (n, len) ∧ n ≠ "IDENTIFIER" :=
  claim_C10_keywords_beat_identifier.1 ("IF", wordLitM "if".data)
    (List.mem_append.mpr (Or.inr (List.mem_map.mpr ⟨("IF", "if"), by decide, rfl⟩)))
    none "if".data (by rfl)

end WormLex
